import Mathlib

/-!
Verification of the webCAMO signaling core and frame buffer.

The definitions below are a shallow embedding of the C++ sources
src/windows/src/SignalingClient.cpp and src/windows/src/FrameBuffer.cpp.
A byte stream is a list of naturals (each below 256 on a real wire);
reading n bytes from a stream hands over its first min(n, available) bytes.
Text is a list of characters.  Frames held by the frame buffer are
abstracted to natural-number identifiers, since the buffer never inspects
frame contents.
-/

namespace WebCAMO

/-! ### Wire frame codec: SignalingClient::WriteFrame / SignalingClient::ReadFrame -/

/-- The fixed masking key of WriteFrame (unsigned char mask[4]). -/
def maskKey : List Nat := [0x12, 0x34, 0x56, 0x78]

/-- The masking loop of WriteFrame, starting at index i: byte i of the data
is XORed with the key byte at index i mod 4. -/
def maskWith (key : List Nat) : Nat → List Nat → List Nat
  | _, [] => []
  | i, b :: rest => (b ^^^ key.getD (i % 4) 0) :: maskWith key (i + 1) rest

/-- SignalingClient::WriteFrame: the header byte 0x81 (final, text), the
length field (7-bit direct if at most 125, escape 126 with a 2-byte
big-endian length if at most 65535, else escape 127 with an 8-byte
big-endian length, the mask bit 0x80 set on the class byte), the 4-byte
masking key, then the masked payload. -/
def writeFrame (data : List Nat) : List Nat :=
  0x81 ::
    ((if data.length ≤ 125 then
        [0x80 ||| data.length]
      else if data.length ≤ 65535 then
        [0x80 ||| 126, (data.length >>> 8) &&& 0xFF, data.length &&& 0xFF]
      else
        (0x80 ||| 127) ::
          (List.range 8).map (fun j => (data.length >>> ((7 - j) * 8)) &&& 0xFF)) ++
      (maskKey ++ maskWith maskKey 0 data))

/-- SignalingClient::ReadFrame on a byte stream: read a 2-byte header, take
the low 7 bits of the second byte as the length, read the 2-byte or 8-byte
extended length when that value is 126 or 127 (big endian, the 8-byte
accumulation wrapping at 2 ^ 64 as for uint64_t), then resize the payload
string to the declared length and fill it with the bytes still available;
positions past the end of the stream keep the zero fill of the resize.
A failed header or extended-length read returns the empty no-message
string.  The first header byte is never inspected, and no mask handling is
performed on inbound frames. -/
def readFrame (stream : List Nat) : List Nat :=
  match stream with
  | _b0 :: b1 :: rest =>
    if b1 &&& 0x7F = 126 then
      match rest with
      | h :: l :: rest2 =>
        (List.range ((h <<< 8) ||| l)).map (fun i => rest2.getD i 0)
      | _ => []
    else if b1 &&& 0x7F = 127 then
      match rest with
      | a :: b :: c :: d :: e :: f :: g :: h :: rest2 =>
        (List.range
            ([a, b, c, d, e, f, g, h].foldl
              (fun acc x => ((acc <<< 8) ||| x) % 2 ^ 64) 0)).map
          (fun i => rest2.getD i 0)
      | _ => []
    else (List.range (b1 &&& 0x7F)).map (fun i => rest.getD i 0)
  | _ => []

/-- The header and length-field phase of ReadFrame in isolation: the
declared payload length and the remaining stream, or none when the header
or extended-length read comes up short. -/
def parseLen (stream : List Nat) : Option (Nat × List Nat) :=
  match stream with
  | _b0 :: b1 :: rest =>
    if b1 &&& 0x7F = 126 then
      match rest with
      | h :: l :: rest2 => some ((h <<< 8) ||| l, rest2)
      | _ => none
    else if b1 &&& 0x7F = 127 then
      match rest with
      | a :: b :: c :: d :: e :: f :: g :: h :: rest2 =>
        some ([a, b, c, d, e, f, g, h].foldl
          (fun acc x => ((acc <<< 8) ||| x) % 2 ^ 64) 0, rest2)
      | _ => none
    else some (b1 &&& 0x7F, rest)
  | _ => none

/-- Claim-side decoder for the round-trip property, following the words of
the specification (the masking round trip of section 8): parse the length
field exactly as ReadFrame does, then, unlike ReadFrame, skip the 4-byte
masking key and XOR each payload byte with the key byte at index mod 4;
defined only when the stream carries the whole frame. -/
def maskAwareRead (stream : List Nat) : Option (List Nat) :=
  match parseLen stream with
  | none => none
  | some (len, rest) =>
    if 4 + len ≤ rest.length then
      some (maskWith (rest.take 4) 0 ((rest.drop 4).take len))
    else none

/-- Claim-side length field, as the specification words it: the length
directly if at most 125, escape 126 with the 2-byte big-endian length if at
most 65535, else escape 127 with the 8-byte big-endian length; the mask bit
0x80 is set on the length-class byte only. -/
def lenFieldSpec (len : Nat) : List Nat :=
  if len ≤ 125 then [128 + len]
  else if len ≤ 65535 then [254, len / 256, len % 256]
  else
    [255, len / 2 ^ 56, len / 2 ^ 48 % 256, len / 2 ^ 40 % 256,
      len / 2 ^ 32 % 256, len / 2 ^ 24 % 256, len / 2 ^ 16 % 256,
      len / 2 ^ 8 % 256, len % 256]

/-- Claim-side masked payload, as the specification words it: byte i of the
payload XORed against the key byte at index i mod 4. -/
def maskedSpec (key : List Nat) (data : List Nat) : List Nat :=
  List.zipWith (fun j b => b ^^^ key.getD (j % 4) 0) (List.range data.length) data

/-! ### FrameBuffer (src/windows/src/FrameBuffer.cpp)
The std::queue is a list with the oldest frame at the head. -/

/-- The eviction loop of FrameBuffer::Push: pop the front while the size is
at least maxFrames.  Popping an empty std::queue is undefined behaviour and
is modelled as none. -/
def evictLoop (cap : Nat) : List Nat → Option (List Nat)
  | [] => if cap = 0 then none else some []
  | x :: rest =>
    if cap ≤ (x :: rest).length then evictLoop cap rest else some (x :: rest)

/-- FrameBuffer::Push: run the eviction loop, then insert the frame at the
back as the newest entry. -/
def fbPush (cap : Nat) (q : List Nat) (f : Nat) : Option (List Nat) :=
  (evictLoop cap q).map (fun q2 => q2 ++ [f])

/-- FrameBuffer::Pop once a frame is available: remove and return the front
(oldest) frame; on an empty queue the wait times out and no frame is
returned. -/
def fbPop (q : List Nat) : Option (Nat × List Nat) :=
  match q with
  | [] => none
  | x :: rest => some (x, rest)

/-- One operation against the frame buffer. -/
inductive FBOp where
  | push (f : Nat)
  | pop
deriving DecidableEq

/-- The frames pushed by a sequence of operations, in order. -/
def pushesOf : List FBOp → List Nat
  | [] => []
  | FBOp.push f :: rest => f :: pushesOf rest
  | FBOp.pop :: rest => pushesOf rest

/-- Run a sequence of operations against the buffer, returning the final
queue and the popped frames in pop order.  A push whose eviction loop
underflows the queue aborts the run (undefined behaviour). -/
def runOps (cap : Nat) : List FBOp → List Nat → Option (List Nat × List Nat)
  | [], q => some (q, [])
  | FBOp.push f :: rest, q =>
    match fbPush cap q f with
    | none => none
    | some q2 => runOps cap rest q2
  | FBOp.pop :: rest, q =>
    match fbPop q with
    | none => runOps cap rest q
    | some (f, q2) => (runOps cap rest q2).map (fun r => (r.1, f :: r.2))

/-! ### SignalingClient connection lifecycle (src/windows/src/SignalingClient.cpp) -/

/-- The connection states of Common.h. -/
inductive ConnectionState where
  | Disconnected
  | Connecting
  | Connected
  | Error
deriving DecidableEq

/-- The initial value of m_state (SignalingClient.h). -/
def initialState : ConnectionState := ConnectionState.Disconnected

/-- A run of decimal digits read as a number, as std::stoi reads the port. -/
def digitsToNat (ds : List Char) : Nat :=
  ds.foldl (fun a c => a * 10 + (c.toNat - 48)) 0

/-- The URL parsing of SignalingClient::Connect: the ECMAScript regex
matching the literal ws://, then a nonempty host of characters other than
colon and slash, an optional colon, an optional digit run as the port, and
an optional arbitrary trailing path group, matched against the whole url;
when the match fails the defaults host localhost, port 8080 and path /
stand, and the port and path defaults also stand when their groups are
unmatched or the path group is empty.  The
character class excluding colon and slash accepts a newline, while the dot
of the trailing group does not, so a newline in the trailing section makes
the whole match fail. -/
def parseUrl (url : List Char) : List Char × Nat × List Char :=
  if ("ws://".toList).isPrefixOf url then
    let rest := url.drop 5
    let host := rest.takeWhile (fun c => !(c == ':' || c == '/'))
    if host = [] then ("localhost".toList, 8080, "/".toList)
    else
      let after := rest.drop host.length
      let pt : Nat × List Char :=
        match after with
        | ':' :: a2 =>
          let digits := a2.takeWhile (fun c => c.isDigit)
          ((if digits = [] then 8080 else digitsToNat digits),
            a2.drop digits.length)
        | _ => (8080, after)
      if pt.2.any (fun c => c == '\n') then ("localhost".toList, 8080, "/".toList)
      else (host, pt.1, if pt.2 = [] then "/".toList else pt.2)
  else ("localhost".toList, 8080, "/".toList)

/-- The observable outcome of one SignalingClient::Connect call: the
SetState calls in order, the return value, whether the socket handle is
left open, and the path handed to PerformHandshake (none when the socket
never opened and no handshake was attempted). -/
structure ConnectOutcome where
  stateChanges : List ConnectionState
  result : Bool
  socketOpen : Bool
  handshakePath : Option (List Char)
deriving DecidableEq

/-- SignalingClient::Connect: parse the url, append the room and the fixed
role marker to the path as query parameters, open the socket, run the
handshake against that path, and set Connected on success; on socket
failure or handshake failure close the transport and set Error.  The two
fallible transport steps are abstracted by the booleans socketOk and
handshakeOk. -/
def connectRun (url room : List Char) (socketOk handshakeOk : Bool) :
    ConnectOutcome :=
  let parsed := parseUrl url
  let path := parsed.2.2 ++ ("?room=".toList) ++ room ++ ("&role=receiver".toList)
  if socketOk = false then
    ConnectOutcome.mk [ConnectionState.Error] false false none
  else if handshakeOk = false then
    ConnectOutcome.mk [ConnectionState.Error] false false (some path)
  else
    ConnectOutcome.mk [ConnectionState.Connected] true true (some path)

/-! ### SignalingClient::OnMessage type extraction -/

/-- The regex whitespace class. -/
def isSpaceChar (c : Char) : Bool :=
  c == ' ' || c == '\t' || c == '\n' || c == '\r' || c == '\x0b' || c == '\x0c'

/-- One attempt of the type regex of SignalingClient::OnMessage at the head
of the text: the literal quoted word type, optional whitespace, a colon,
optional whitespace, then a quoted nonempty capture of non-quote
characters. -/
def matchTypeAt (s : List Char) : Option (List Char) :=
  if ("\"type\"".toList).isPrefixOf s then
    match (s.drop 6).dropWhile isSpaceChar with
    | ':' :: r3 =>
      match r3.dropWhile isSpaceChar with
      | '"' :: r5 =>
        let cap := r5.takeWhile (fun c => !(c == '"'))
        if cap = [] then none
        else
          match r5.drop cap.length with
          | '"' :: _ => some cap
          | _ => none
      | _ => none
    | _ => none
  else none

/-- regex_search over the message: the capture of the first position where
the type pattern matches, or the empty string when it matches nowhere. -/
def extractType : List Char → List Char
  | [] => []
  | c :: rest =>
    match matchTypeAt (c :: rest) with
    | some t => t
    | none => extractType rest

/-- SignalingClient::OnMessage: the (type, payload) handler invocations
caused by one inbound message — exactly one when a callback is
registered, none otherwise. -/
def onMessage (callbackSet : Bool) (msg : List Char) :
    List (List Char × List Char) :=
  if callbackSet then [(extractType msg, msg)] else []

/-- The offer payload of the end-to-end scenario. -/
def offerPayload : List Char :=
  "\x7b\"type\":\"offer\",\"sdp\":\"v=0...\"\x7d".toList

/-! ### SignalingClient::PerformHandshake response check -/

/-- strstr semantics: the buffer is a NUL-terminated C string, so nothing
from the first NUL byte on is ever examined. -/
def takeUntilNul (bs : List Nat) : List Nat :=
  bs.takeWhile (fun b => !(b == 0))

/-- The needle occurs as a contiguous substring of the haystack. -/
def containsSub (needle : List Nat) : List Nat → Bool
  | [] => needle.isEmpty
  | h :: t => needle.isPrefixOf (h :: t) || containsSub needle t

/-- The bytes of the token 101. -/
def token101 : List Nat := [49, 48, 49]

/-- The response check of SignalingClient::PerformHandshake: received holds
the bytes the single bounded recv returned (empty when the read failed or
the stream was closed); the buffer is NUL-terminated and searched with
strstr for the token 101. -/
def handshakeCheck (received : List Nat) : Bool :=
  !received.isEmpty && containsSub token101 (takeUntilNul received)

/-! ### Helper lemmas -/

theorem maskWith_length (key : List Nat) (i : Nat) (p : List Nat) :
    (maskWith key i p).length = p.length := by
  induction p generalizing i with
  | nil => rfl
  | cons b rest ih => simp [maskWith, ih]

theorem maskWith_maskWith (key : List Nat) (i : Nat) (p : List Nat) :
    maskWith key i (maskWith key i p) = p := by
  induction p generalizing i with
  | nil => rfl
  | cons b rest ih => simp [maskWith, ih, Nat.xor_cancel_right]

theorem maskWith_range' (key : List Nat) (p : List Nat) (i : Nat) :
    maskWith key i p =
      List.zipWith (fun j b => b ^^^ key.getD (j % 4) 0) (List.range' i p.length) p := by
  induction p generalizing i with
  | nil => rfl
  | cons b rest ih =>
    simp [maskWith, List.length_cons, List.range'_succ, ih (i + 1)]

theorem maskWith_zero (key : List Nat) (p : List Nat) :
    maskWith key 0 p = maskedSpec key p := by
  rw [maskedSpec, List.range_eq_range', maskWith_range']

theorem rangeMap_getD (len : Nat) : ∀ rest : List Nat,
    (List.range len).map (fun i => rest.getD i 0) =
      rest.take len ++ List.replicate (len - rest.length) 0 := by
  induction len with
  | zero => intro rest; simp
  | succ n ih =>
    intro rest
    rcases rest with _ | ⟨r, rs⟩
    · have h0 : (fun i => ([] : List Nat).getD i 0) = fun _ : Nat => (0 : Nat) :=
        funext fun i => by cases i <;> rfl
      rw [h0, List.map_const', List.length_range]
      simp
    · rw [List.range_succ_eq_map, List.map_cons, List.map_map]
      have h1 : ((fun i => (r :: rs).getD i 0) ∘ Nat.succ) = fun i => rs.getD i 0 :=
        funext fun i => rfl
      rw [h1, ih rs]
      simp [Nat.succ_sub_succ]

theorem readFrame_eq (stream : List Nat) :
    readFrame stream =
      match parseLen stream with
      | none => []
      | some (len, rest) => rest.take len ++ List.replicate (len - rest.length) 0 := by
  rcases stream with _ | ⟨b0, _ | ⟨b1, rest⟩⟩
  · rfl
  · rfl
  · by_cases h126 : b1 &&& 0x7F = 126
    · rcases rest with _ | ⟨x, _ | ⟨y, rest2⟩⟩ <;>
        (simp only [readFrame, parseLen, h126, if_pos];
          try exact rangeMap_getD _ _)
    · by_cases h127 : b1 &&& 0x7F = 127
      · rcases rest with _ | ⟨a, _ | ⟨b, _ | ⟨c, _ | ⟨d, _ | ⟨e, _ | ⟨f, _ | ⟨g, _ | ⟨h, rest2⟩⟩⟩⟩⟩⟩⟩⟩ <;>
          simp only [readFrame, parseLen, h126, h127, if_neg, if_pos,
            if_false, if_true, eq_self_iff_true, not_false_iff] <;>
          first
            | rfl
            | exact rangeMap_getD _ _
      · simp only [readFrame, parseLen, h126, h127, if_neg, not_false_iff]
        exact rangeMap_getD _ _

theorem evictLoop_zero (q : List Nat) : evictLoop 0 q = none := by
  induction q with
  | nil => rfl
  | cons x rest ih => simp [evictLoop, ih]

theorem evictLoop_eq_drop (cap : Nat) (hcap : 1 ≤ cap) (q : List Nat) :
    evictLoop cap q = some (q.drop (q.length + 1 - cap)) := by
  induction q with
  | nil =>
    have h : cap ≠ 0 := by omega
    simp [evictLoop, h]
  | cons x rest ih =>
    by_cases h : cap ≤ (x :: rest).length
    · rw [show evictLoop cap (x :: rest) =
          if cap ≤ (x :: rest).length then evictLoop cap rest
          else some (x :: rest) from rfl,
        if_pos h, ih]
      have hlen : (x :: rest).length + 1 - cap = (rest.length + 1 - cap) + 1 := by
        simp only [List.length_cons]
        simp only [List.length_cons] at h
        omega
      rw [hlen, List.drop_succ_cons]
    · rw [show evictLoop cap (x :: rest) =
          if cap ≤ (x :: rest).length then evictLoop cap rest
          else some (x :: rest) from rfl,
        if_neg h]
      have hz : (x :: rest).length + 1 - cap = 0 := by
        simp only [List.length_cons] at h ⊢
        omega
      rw [hz, List.drop_zero]

theorem runOps_sound (cap : Nat) (hcap : 1 ≤ cap) :
    ∀ (ops : List FBOp) (q : List Nat), ∃ pr : List Nat × List Nat,
      runOps cap ops q = some pr ∧ (pr.2 ++ pr.1).Sublist (q ++ pushesOf ops) := by
  intro ops
  induction ops with
  | nil =>
    intro q
    exact ⟨(q, []), rfl, by simp⟩
  | cons op rest ih =>
    intro q
    cases op with
    | push f =>
      have hpush : fbPush cap q f = some (q.drop (q.length + 1 - cap) ++ [f]) := by
        rw [fbPush, evictLoop_eq_drop cap hcap q]
        rfl
      obtain ⟨pr, hrun, hsub⟩ := ih (q.drop (q.length + 1 - cap) ++ [f])
      refine ⟨pr, ?_, ?_⟩
      · simp [runOps, hpush, hrun]
      · refine hsub.trans ?_
        rw [List.append_assoc]
        simp only [pushesOf]
        exact List.Sublist.append (List.drop_sublist _ _) (List.Sublist.refl _)
    | pop =>
      rcases q with _ | ⟨x, q'⟩
      · obtain ⟨pr, hrun, hsub⟩ := ih []
        exact ⟨pr, by simp [runOps, fbPop, hrun], by simpa [pushesOf] using hsub⟩
      · obtain ⟨pr, hrun, hsub⟩ := ih q'
        refine ⟨(pr.1, x :: pr.2), ?_, ?_⟩
        · simp [runOps, fbPop, hrun]
        · simp only [pushesOf, List.cons_append]
          exact List.Sublist.cons₂ x (by simpa using hsub)

theorem takeUntilNul_eq_self {bs : List Nat} (h : ∀ b ∈ bs, b ≠ 0) :
    takeUntilNul bs = bs := by
  induction bs with
  | nil => rfl
  | cons x t ih =>
    have hx : x ≠ 0 := h x (by simp)
    have ht : ∀ b ∈ t, b ≠ 0 := fun b hb => h b (by simp [hb])
    simp [takeUntilNul, List.takeWhile_cons, hx]
    simpa [takeUntilNul] using ih ht

theorem and255_eq_mod (x : Nat) : x &&& 0xFF = x % 256 := by
  have h : (0xFF : Nat) = 2 ^ 8 - 1 := by norm_num
  rw [h, Nat.and_pow_two_sub_one_eq_mod]

theorem shiftRight_and255 (x k : Nat) : (x >>> k) &&& 0xFF = x / 2 ^ k % 256 := by
  rw [and255_eq_mod, Nat.shiftRight_eq_div_pow]

theorem or128_eq_add {x : Nat} (h : x < 128) : 128 ||| x = 128 + x := by
  have h2 : x < 2 ^ 7 := by omega
  have h3 := Nat.mul_add_lt_is_or h2 1
  norm_num at h3
  exact h3.symm

theorem maskAware_on_frame (len : Nat) (p : List Nat) (hlen : p.length = len)
    (stream : List Nat)
    (hp : parseLen stream = some (len, maskKey ++ maskWith maskKey 0 p)) :
    maskAwareRead stream = some p := by
  have hml : (maskWith maskKey 0 p).length = p.length := maskWith_length _ _ _
  simp only [maskAwareRead, hp]
  have hrl : (maskKey ++ maskWith maskKey 0 p).length = 4 + len := by
    rw [List.length_append, hml, hlen]
    rfl
  rw [hrl, if_pos (Nat.le_refl _)]
  have ht : (maskKey ++ maskWith maskKey 0 p).take 4 = maskKey := by
    rw [show (4 : Nat) = maskKey.length from rfl, List.take_left]
  have hd : (maskKey ++ maskWith maskKey 0 p).drop 4 = maskWith maskKey 0 p := by
    rw [show (4 : Nat) = maskKey.length from rfl, List.drop_left]
  rw [ht, hd]
  have htl : (maskWith maskKey 0 p).take len = maskWith maskKey 0 p := by
    rw [show len = (maskWith maskKey 0 p).length from by rw [hml, hlen]]
    exact List.take_length _
  rw [htl, maskWith_maskWith]

theorem maskAware_small (p : List Nat) (hle : p.length ≤ 125) :
    maskAwareRead (writeFrame p) = some p := by
  have hlt : p.length < 128 := by omega
  have hb : ((0x80 : Nat) ||| p.length) = 128 + p.length := or128_eq_add hlt
  have hand : (128 + p.length) &&& 0x7F = p.length := by
    rw [show (0x7F : Nat) = 2 ^ 7 - 1 from by norm_num,
      Nat.and_pow_two_sub_one_eq_mod,
      show (2 : Nat) ^ 7 = 128 from by norm_num,
      Nat.add_mod_left]
    exact Nat.mod_eq_of_lt hlt
  have hw : writeFrame p =
      0x81 :: ((128 + p.length) :: (maskKey ++ maskWith maskKey 0 p)) := by
    simp only [writeFrame]
    rw [if_pos hle, hb]
    rfl
  have hp : parseLen (writeFrame p) =
      some (p.length, maskKey ++ maskWith maskKey 0 p) := by
    rw [hw]
    simp only [parseLen, hand]
    rw [if_neg (by omega), if_neg (by omega)]
  exact maskAware_on_frame p.length p rfl _ hp

theorem maskAware_medium (p : List Nat) (hge : 126 ≤ p.length)
    (hle : p.length ≤ 65535) :
    maskAwareRead (writeFrame p) = some p := by
  have e254 : ((0x80 : Nat) ||| 126) = 254 := by decide
  have ehi : (p.length >>> 8) &&& 0xFF = p.length / 256 := by
    rw [shiftRight_and255, show (2 : Nat) ^ 8 = 256 from by norm_num]
    have hq : p.length / 256 < 256 := by
      rw [Nat.div_lt_iff_lt_mul (by norm_num : (0 : Nat) < 256)]
      omega
    exact Nat.mod_eq_of_lt hq
  have elo : p.length &&& 0xFF = p.length % 256 := and255_eq_mod _
  have edec : ((p.length / 256) <<< 8) ||| p.length % 256 = p.length := by
    have hmod : p.length % 256 < 2 ^ 8 := by
      rw [show (2 : Nat) ^ 8 = 256 from by norm_num]
      exact Nat.mod_lt _ (by norm_num)
    have hor := Nat.mul_add_lt_is_or hmod (p.length / 256)
    calc (p.length / 256) <<< 8 ||| p.length % 256
        = 2 ^ 8 * (p.length / 256) ||| p.length % 256 := by
          rw [Nat.shiftLeft_eq, Nat.mul_comm]
      _ = 2 ^ 8 * (p.length / 256) + p.length % 256 := hor.symm
      _ = p.length := by
          rw [show (2 : Nat) ^ 8 = 256 from by norm_num]
          exact Nat.div_add_mod _ _
  have hw : writeFrame p =
      0x81 :: (254 :: ((p.length / 256) :: ((p.length % 256) ::
        (maskKey ++ maskWith maskKey 0 p)))) := by
    simp only [writeFrame]
    rw [if_neg (by omega), if_pos hle, e254, ehi, elo]
    rfl
  have e254and : (254 : Nat) &&& 0x7F = 126 := by decide
  have hp : parseLen (writeFrame p) =
      some (p.length, maskKey ++ maskWith maskKey 0 p) := by
    rw [hw]
    simp only [parseLen, e254and, if_pos]
    rw [edec]
  exact maskAware_on_frame p.length p rfl _ hp

theorem maskAware_large65536 (p : List Nat) (h : p.length = 65536) :
    maskAwareRead (writeFrame p) = some p := by
  have e255 : ((0x80 : Nat) ||| 127) = 255 := by decide
  have hr : (List.range 8).map (fun j => ((65536 : Nat) >>> ((7 - j) * 8)) &&& 0xFF) =
      [0, 0, 0, 0, 0, 1, 0, 0] := by decide
  have hw : writeFrame p =
      0x81 :: (255 :: (0 :: (0 :: (0 :: (0 :: (0 :: (1 :: (0 :: (0 ::
        (maskKey ++ maskWith maskKey 0 p)))))))))) := by
    simp only [writeFrame, h]
    rw [if_neg (by omega), if_neg (by omega), e255, hr]
    rfl
  have hfold : ([0, 0, 0, 0, 0, 1, 0, 0] : List Nat).foldl
      (fun acc x => ((acc <<< 8) ||| x) % 2 ^ 64) 0 = 65536 := by decide
  have hp : parseLen (writeFrame p) =
      some (65536, maskKey ++ maskWith maskKey 0 p) := by
    rw [hw]
    simp only [parseLen]
    rw [if_neg (by decide), if_pos (by decide), hfold]
  exact maskAware_on_frame 65536 p h _ hp

/-! ### Claims about the frame codec -/

/-- Claim C1 fails: already at the boundary length 1 the byte stream
produced by WriteFrame, decoded by ReadFrame, does not give back the
payload — ReadFrame neither skips nor removes the 4-byte masking key, so
the decoded byte is the first key byte 0x12. -/
theorem writeFrame_readFrame_not_roundtrip :
    readFrame (writeFrame [97]) = [18] ∧ readFrame (writeFrame [97]) ≠ [97] := by
  decide

/-- Claim C1 (amended): for every payload of one of the boundary lengths
0, 1, 125, 126, 65535 or 65536, decoding the byte stream produced by
WriteFrame with the mask-aware decoder — which parses the length exactly as
ReadFrame does and then, per the masking round-trip property, skips the
4-byte masking key and XORs each payload byte with the key byte at index
mod 4 — returns exactly the original payload.  ReadFrame itself performs no
mask handling, so the literal WriteFrame-then-ReadFrame round trip fails
for nonempty payloads. -/
theorem maskAware_roundtrip (p : List Nat)
    (hL : p.length = 0 ∨ p.length = 1 ∨ p.length = 125 ∨ p.length = 126 ∨
      p.length = 65535 ∨ p.length = 65536) :
    maskAwareRead (writeFrame p) = some p := by
  rcases hL with h | h | h | h | h | h
  · exact maskAware_small p (by omega)
  · exact maskAware_small p (by omega)
  · exact maskAware_small p (by omega)
  · exact maskAware_medium p (by omega) (by omega)
  · exact maskAware_medium p (by omega) (by omega)
  · exact maskAware_large65536 p h

/-- Application of maskAware_roundtrip at a length-1 payload. -/
theorem maskAware_roundtrip_app : maskAwareRead (writeFrame [201]) = some [201] :=
  maskAware_roundtrip [201] (by decide)

/-- Claim C3 fails: with a declared length of 5 and only 3 payload bytes
arriving before the stream closes, the short payload read does not yield
the empty no-message result but a partial message padded with zero
bytes. -/
theorem readFrame_short_payload_refutes_C3 :
    parseLen [129, 5, 97, 98, 99] = some (5, [97, 98, 99]) ∧
    readFrame [129, 5, 97, 98, 99] = [97, 98, 99, 0, 0] ∧
    readFrame [129, 5, 97, 98, 99] ≠ [] := by decide

/-- Claim C3 (amended): a short or failed read during header or extended
length collection yields the empty no-message result; a short read during
payload collection, however, ends collection early and returns the
declared-length buffer holding the received prefix padded with zero bytes
— a partial message — rather than the empty result. -/
theorem readFrame_failure_modes (stream : List Nat) :
    (parseLen stream = none → readFrame stream = []) ∧
    (∀ len rest, parseLen stream = some (len, rest) →
      readFrame stream = rest.take len ++ List.replicate (len - rest.length) 0) := by
  constructor
  · intro h
    rw [readFrame_eq, h]
  · intro len rest h
    rw [readFrame_eq, h]

/-- Application of readFrame_failure_modes at a concrete truncated
stream. -/
theorem readFrame_failure_modes_app :
    readFrame [129, 6, 1, 2, 3] =
      [1, 2, 3].take 6 ++ List.replicate (6 - [1, 2, 3].length) 0 :=
  (readFrame_failure_modes [129, 6, 1, 2, 3]).2 6 [1, 2, 3] (by decide)

/-- Claim C4: WriteFrame emits the byte 0x81, then the length field of the
correct class — the length directly in 7 bits if at most 125, escape 126
plus a 2-byte big-endian length if at most 65535, otherwise escape 127 plus
an 8-byte big-endian length — with the mask bit set in the length-class
byte, then the 4-byte masking key, then the payload with byte i XORed
against the key byte at index i mod 4. -/
theorem writeFrame_format (data : List Nat) (h64 : data.length < 2 ^ 64) :
    writeFrame data =
      0x81 :: (lenFieldSpec data.length ++ (maskKey ++ maskedSpec maskKey data)) := by
  rw [← maskWith_zero]
  simp only [writeFrame, lenFieldSpec]
  by_cases h1 : data.length ≤ 125
  · rw [if_pos h1, if_pos h1, or128_eq_add (by omega)]
  · rw [if_neg h1, if_neg h1]
    by_cases h2 : data.length ≤ 65535
    · rw [if_pos h2, if_pos h2]
      have ehi : (data.length >>> 8) &&& 0xFF = data.length / 256 := by
        rw [shiftRight_and255, show (2 : Nat) ^ 8 = 256 from by norm_num]
        have hq : data.length / 256 < 256 := by
          rw [Nat.div_lt_iff_lt_mul (by norm_num : (0 : Nat) < 256)]
          omega
        exact Nat.mod_eq_of_lt hq
      rw [show ((0x80 : Nat) ||| 126) = 254 from by decide, ehi, and255_eq_mod]
    · rw [if_neg h2, if_neg h2]
      have h64L : data.length < 18446744073709551616 := by
        calc data.length < 2 ^ 64 := h64
          _ = 18446744073709551616 := by norm_num
      have hq : data.length / 72057594037927936 < 256 := by
        rw [Nat.div_lt_iff_lt_mul (by norm_num : (0 : Nat) < 72057594037927936)]
        omega
      rw [show ((0x80 : Nat) ||| 127) = 255 from by decide,
        show (List.range 8) = [0, 1, 2, 3, 4, 5, 6, 7] from by decide]
      simp only [List.map_cons, List.map_nil, shiftRight_and255]
      norm_num [Nat.mod_eq_of_lt hq]

/-- Application of writeFrame_format at a concrete payload. -/
theorem writeFrame_format_app :
    writeFrame [7] =
      0x81 :: (lenFieldSpec ([7] : List Nat).length ++
        (maskKey ++ maskedSpec maskKey [7])) :=
  writeFrame_format [7] (by norm_num)

/-! ### Claims about the frame buffer -/

/-- Claim C2 fails at capacity 0: there the size equals the capacity before
the push, yet Push does not succeed — its eviction loop underflows the
empty queue and the frame is never inserted. -/
theorem fbPush_cap_zero_refutes_C2 :
    ([] : List Nat).length = 0 ∧ fbPush 0 ([] : List Nat) 3 = none := by decide

/-- Claim C2 (amended): for every FrameBuffer of capacity at least 1, Push
always succeeds; the resulting size never exceeds the capacity fixed at
construction; and when the size equals the capacity beforehand, Push evicts
exactly the previously-oldest frame before inserting the new one. -/
theorem fbPush_bounded (cap : Nat) (q : List Nat) (f : Nat) (hcap : 1 ≤ cap) :
    (fbPush cap q f).isSome = true ∧
    (∀ q2, fbPush cap q f = some q2 → q2.length ≤ cap) ∧
    (q.length = cap → fbPush cap q f = some (q.tail ++ [f])) := by
  have hev := evictLoop_eq_drop cap hcap q
  have hpush : fbPush cap q f = some (q.drop (q.length + 1 - cap) ++ [f]) := by
    rw [fbPush, hev]; rfl
  refine ⟨by simp [hpush], ?_, ?_⟩
  · intro q2 h2
    rw [hpush] at h2
    obtain rfl : q2 = q.drop (q.length + 1 - cap) ++ [f] := by
      simpa using h2.symm
    simp only [List.length_append, List.length_drop, List.length_cons,
      List.length_nil]
    omega
  · intro hfull
    rw [hpush, hfull]
    have : cap + 1 - cap = 1 := by omega
    rw [this, List.drop_one]

/-- Claim C5: running any sequence of Push and Pop operations from the
empty buffer (capacity at least 1) never aborts; Pop removes and returns
the head, the oldest resident frame; and the popped frames followed by the
frames still resident form a sublist of the pushed frames in push order, so
no popped frame was never pushed and the popped order matches the push
order among surviving frames. -/
theorem runOps_fifo (cap : Nat) (ops : List FBOp) (hcap : 1 ≤ cap) :
    (∀ (x : Nat) (xs : List Nat), fbPop (x :: xs) = some (x, xs)) ∧
    (runOps cap ops []).isSome = true ∧
    (∀ qf popped, runOps cap ops [] = some (qf, popped) →
      (popped ++ qf).Sublist (pushesOf ops)) := by
  obtain ⟨pr, hrun, hsub⟩ := runOps_sound cap hcap ops []
  refine ⟨fun x xs => rfl, by simp [hrun], ?_⟩
  intro qf popped h
  rw [hrun] at h
  obtain rfl : pr = (qf, popped) := by simpa using h
  simpa using hsub

/-- Application of runOps_fifo at a concrete run. -/
theorem runOps_fifo_app :
    fbPop [5, 6] = some (5, [6]) ∧
    (runOps 3 [FBOp.push 10, FBOp.push 20, FBOp.pop] []).isSome = true :=
  ⟨(runOps_fifo 3 [FBOp.push 10, FBOp.push 20, FBOp.pop] (by decide)).1 5 [6],
    (runOps_fifo 3 [FBOp.push 10, FBOp.push 20, FBOp.pop] (by decide)).2.1⟩

/-- Claim C10 fails: with maxFrames = 0 a Push does not insert the frame
and the size does not become 1 — the eviction condition never turns false
and the loop pops the empty queue. -/
theorem fbPush_cap_zero_refutes_C10 :
    fbPush 0 ([] : List Nat) 7 = none ∧
    fbPush 0 ([] : List Nat) 7 ≠ some [7] := by decide

/-- Claim C10 (amended): with maxFrames = 0, Push never inserts — the
eviction loop condition size at least capacity never becomes false and the
loop underflows the empty queue — while for every capacity at least 1 a
Push always completes and the bound size at most capacity holds
afterwards. -/
theorem fbPush_zero_vs_positive :
    (∀ (q : List Nat) (f : Nat), fbPush 0 q f = none) ∧
    (∀ (cap : Nat) (q : List Nat) (f : Nat), 1 ≤ cap →
      (fbPush cap q f).isSome = true ∧
      ∀ q2, fbPush cap q f = some q2 → q2.length ≤ cap) := by
  constructor
  · intro q f
    rw [fbPush, evictLoop_zero]
    rfl
  · intro cap q f hcap
    have hpush : fbPush cap q f = some (q.drop (q.length + 1 - cap) ++ [f]) := by
      rw [fbPush, evictLoop_eq_drop cap hcap q]; rfl
    refine ⟨by simp [hpush], ?_⟩
    intro q2 h2
    rw [hpush] at h2
    obtain rfl : q2 = q.drop (q.length + 1 - cap) ++ [f] := by
      simpa using h2.symm
    simp only [List.length_append, List.length_drop, List.length_cons,
      List.length_nil]
    omega

/-- Application of fbPush_zero_vs_positive at concrete inputs. -/
theorem fbPush_zero_vs_positive_app :
    fbPush 0 [5] 7 = none ∧ (fbPush 2 [5] 7).isSome = true :=
  ⟨fbPush_zero_vs_positive.1 [5] 7,
    (fbPush_zero_vs_positive.2 2 [5] 7 (by decide)).1⟩

/-- Application of fbPush_bounded at a concrete full buffer. -/
theorem fbPush_bounded_app :
    (fbPush 3 [1, 2, 3] 9).isSome = true ∧
    fbPush 3 [1, 2, 3] 9 = some ([1, 2, 3].tail ++ [9]) :=
  ⟨(fbPush_bounded 3 [1, 2, 3] 9 (by decide)).1,
    (fbPush_bounded 3 [1, 2, 3] 9 (by decide)).2.2 (by decide)⟩

/-! ### Claims about the connection lifecycle and handshake -/

/-- Claim C6 fails: on a fully successful Connect the only state set is
Connected — the Connecting state is never entered on the way. -/
theorem connect_skips_connecting_refutes_C6 :
    (connectRun ("ws://h:1/p".toList) ("r".toList) true true).result = true ∧
    (connectRun ("ws://h:1/p".toList) ("r".toList) true true).stateChanges =
      [ConnectionState.Connected] ∧
    ¬ ConnectionState.Connecting ∈
      (connectRun ("ws://h:1/p".toList) ("r".toList) true true).stateChanges := by
  decide

/-- Claim C6 (amended): starting from the initial Disconnected state,
Connect moves the state directly to Connected on success — the Connecting
state is never entered by any code path — and on any failure the transport
is closed and the state becomes Error. -/
theorem connect_transitions (url room : List Char) (sOk hOk : Bool) :
    initialState = ConnectionState.Disconnected ∧
    ConnectionState.Connecting ∉ (connectRun url room sOk hOk).stateChanges ∧
    ((connectRun url room sOk hOk).result = true →
      (connectRun url room sOk hOk).stateChanges = [ConnectionState.Connected] ∧
      (connectRun url room sOk hOk).socketOpen = true) ∧
    ((connectRun url room sOk hOk).result = false →
      (connectRun url room sOk hOk).stateChanges = [ConnectionState.Error] ∧
      (connectRun url room sOk hOk).socketOpen = false) := by
  cases sOk <;> cases hOk <;> simp [connectRun, initialState]

/-- Application of connect_transitions at a failing socket connect. -/
theorem connect_transitions_app :
    initialState = ConnectionState.Disconnected ∧
    (connectRun ("ws://a:2/q".toList) ("x".toList) false true).stateChanges =
      [ConnectionState.Error] ∧
    (connectRun ("ws://a:2/q".toList) ("x".toList) false true).socketOpen = false := by
  have h := connect_transitions ("ws://a:2/q".toList) ("x".toList) false true
  exact ⟨h.1, (h.2.2.2 (by decide)).1, (h.2.2.2 (by decide)).2⟩

/-- Claim C7: handed the offer control message, OnMessage extracts the type
tag offer and invokes the registered message handler exactly once, with the
pair of that tag and the raw payload. -/
theorem onMessage_offer_dispatch :
    extractType offerPayload = ("offer".toList) ∧
    onMessage true offerPayload = [(("offer".toList), offerPayload)] := by
  decide

/-- Claim C8 fails: the URL regex demands the ws:// scheme, so the address
host:1234/ws does not match, the defaults stand, and the handshake path is
/?room=roomA&role=receiver instead of /ws?room=roomA&role=receiver. -/
theorem connect_path_refutes_C8 :
    (connectRun ("host:1234/ws".toList) ("roomA".toList) true true).handshakePath =
      some ("/?room=roomA&role=receiver".toList) ∧
    (connectRun ("host:1234/ws".toList) ("roomA".toList) true true).handshakePath ≠
      some ("/ws?room=roomA&role=receiver".toList) := by
  decide

/-- Claim C8 (amended): the address must carry the ws:// scheme for the
parse to succeed: Connect with address ws://host:1234/ws and room roomA
parses host host, port 1234 and path /ws and hands the handshake the path
/ws?room=roomA&role=receiver, while the schemeless address host:1234/ws
fails the regex and falls back to the defaults localhost, 8080 and /. -/
theorem connect_path_parse :
    parseUrl ("ws://host:1234/ws".toList) =
      (("host".toList), 1234, ("/ws".toList)) ∧
    (connectRun ("ws://host:1234/ws".toList) ("roomA".toList) true true).handshakePath =
      some ("/ws?room=roomA&role=receiver".toList) ∧
    parseUrl ("host:1234/ws".toList) =
      (("localhost".toList), 8080, ("/".toList)) := by
  decide

/-- Claim C9 fails: a response buffer that contains the token 101 only
after an embedded NUL byte is declared a failure, because the strstr search
stops at the NUL. -/
theorem handshake_nul_refutes_C9 :
    containsSub token101 [0, 49, 48, 49] = true ∧
    handshakeCheck [0, 49, 48, 49] = false := by decide

/-- Claim C9 (amended): for every received response buffer free of NUL
bytes, the handshake succeeds exactly when the buffer contains the token
101; in particular an empty read — a closed stream or failed recv — always
fails. -/
theorem handshakeCheck_iff (received : List Nat) (hn : ∀ b ∈ received, b ≠ 0) :
    handshakeCheck received = true ↔ containsSub token101 received = true := by
  rcases received with _ | ⟨x, t⟩
  · constructor
    · intro h
      exact absurd h (by decide)
    · intro h
      exact absurd h (by decide)
  · rw [handshakeCheck, takeUntilNul_eq_self hn]
    simp

/-- Application of handshakeCheck_iff at a concrete accepted response. -/
theorem handshakeCheck_iff_app : handshakeCheck [72, 49, 48, 49] = true :=
  (handshakeCheck_iff [72, 49, 48, 49] (by decide)).mpr (by decide)

end WebCAMO
